import Mathlib

/-!
Verification of the slicewrap crate (src/lib.rs): a macro generating
transparent newtype wrappers around unsized slices and strings, together
with the as_deref projection helper.

The development shallowly embeds the runtime meaning of the generated code:

* memory layout of the generated repr(transparent) struct, computed by an
  explicit field-placement algorithm over field layouts;
* references as fat pointers (address plus length metadata); the generated
  transmute-based constructors and the field-projection accessors act on
  these addresses;
* heap containers (Box, Rc, Arc) as records carrying an allocation
  identity, payload address, reference counts and content; the generated
  transmutes act on them bit-identically;
* the string comparison, byte view and Display implementations over
  strings modelled as byte lists;
* a byte-granular memory for the mutation-visibility claims;
* the item list emitted by one macro expansion, with per-item visibility,
  mirroring each arm of the wrap macro.
-/

namespace Slicewrap

/-! ## Layout model -/

/-- Size and alignment of a (possibly unsized) Rust value, in bytes. -/
structure Layout where
  size : Nat
  align : Nat
deriving DecidableEq

/-- Round an offset up to the next multiple of an alignment. -/
def alignUp (n al : Nat) : Nat := ((n + al - 1) / al) * al

/-- Offsets assigned to consecutive struct fields: each field is placed at
the current offset rounded up to the field alignment. -/
def fieldOffsets : Nat → List Layout → List Nat
  | _, [] => []
  | off, f :: fs => alignUp off f.align :: fieldOffsets (alignUp off f.align + f.size) fs

/-- Alignment of a struct: maximum of the field alignments (at least 1). -/
def structAlign (fields : List Layout) : Nat :=
  fields.foldr (fun f a => max f.align a) 1

/-- Offset just past the last field after sequential placement. -/
def structEnd : Nat → List Layout → Nat
  | off, [] => off
  | off, f :: fs => structEnd (alignUp off f.align + f.size) fs

/-- Layout of a struct from its field layouts: fields placed in order,
total size rounded up to the struct alignment. -/
def structLayout (fields : List Layout) : Layout :=
  ⟨alignUp (structEnd 0 fields) (structAlign fields), structAlign fields⟩

/-- Layout of a value of the wrapped sequence type (an unsized slice of
len elements of the given element layout; for str the element layout is
size 1, align 1). -/
def seqLayout (elem : Layout) (len : Nat) : Layout :=
  ⟨len * elem.size, elem.align⟩

/-- Layout of a value of the generated wrapper struct: the struct has the
sequence as its sole field (lib.rs line 140: vis struct name (type);). -/
def wrapperLayout (elem : Layout) (len : Nat) : Layout :=
  structLayout [seqLayout elem len]

/-- Offset of the single field inside the generated wrapper struct. -/
def wrapperFieldOffset (elem : Layout) (len : Nat) : Nat :=
  (fieldOffsets 0 [seqLayout elem len]).headD 0

/-! ## References

A reference to an unsized sequence (or to a wrapper around one) is a fat
pointer: address plus length metadata. -/

/-- A fat reference: address and length metadata. -/
structure Ref where
  addr : Nat
  len : Nat
deriving DecidableEq

/-- Generated constructor from_ref (lib.rs lines 144-147): a
core mem transmute of the reference, which reinterprets the fat pointer
bits unchanged. -/
def from_ref (r : Ref) : Ref := r

/-- Generated constructor from_ref_mut (lib.rs lines 150-153): transmute
of the mutable reference, fat pointer bits unchanged. -/
def from_ref_mut (r : Ref) : Ref := r

/-- Generated accessor as_inner (lib.rs lines 155-157): the body takes the
address of field 0 of self, i.e. the reference address shifted by the
field offset, metadata unchanged. -/
def as_inner (elem : Layout) (r : Ref) : Ref :=
  ⟨r.addr + wrapperFieldOffset elem r.len, r.len⟩

/-- Generated accessor as_inner_mut (lib.rs lines 159-161): address of
field 0 of self through a mutable reference. -/
def as_inner_mut (elem : Layout) (r : Ref) : Ref :=
  ⟨r.addr + wrapperFieldOffset elem r.len, r.len⟩

/-- Generated Deref impl (lib.rs lines 164-170): the body is the same
field projection as as_inner. -/
def deref (elem : Layout) (r : Ref) : Ref :=
  ⟨r.addr + wrapperFieldOffset elem r.len, r.len⟩

/-- Generated DerefMut impl (lib.rs lines 172-176). -/
def deref_mut (elem : Layout) (r : Ref) : Ref :=
  ⟨r.addr + wrapperFieldOffset elem r.len, r.len⟩

/-- Generated AsRef impl (lib.rs lines 178-182): calls as_inner. -/
def as_ref (elem : Layout) (r : Ref) : Ref := as_inner elem r

/-- Generated AsMut impl (lib.rs lines 184-188): calls as_inner_mut. -/
def as_mut (elem : Layout) (r : Ref) : Ref := as_inner_mut elem r

/-! ## Layout helper lemmas -/

theorem alignUp_zero {al : Nat} (h : 0 < al) : alignUp 0 al = 0 := by
  unfold alignUp
  have : (0 + al - 1) / al = 0 := Nat.div_eq_of_lt (by omega)
  rw [this, Nat.zero_mul]

theorem alignUp_of_dvd {n al : Nat} (h : 0 < al) (hd : al ∣ n) : alignUp n al = n := by
  obtain ⟨k, rfl⟩ := hd
  unfold alignUp
  have h1 : al * k + al - 1 = al * k + (al - 1) := by omega
  rw [h1, Nat.mul_add_div h, Nat.div_eq_of_lt (by omega), Nat.add_zero, Nat.mul_comm]

theorem wrapperFieldOffset_eq_zero {elem : Layout} (h : 0 < elem.align) (len : Nat) :
    wrapperFieldOffset elem len = 0 := by
  unfold wrapperFieldOffset fieldOffsets seqLayout
  simp [alignUp_zero h]

/-! ## Wrapper values and heap containers

The value stored behind a container pointer. A wrapper value is a record
holding the sequence value as its sole component, matching the generated
single-field struct. -/

/-- A value of the generated wrapper struct: one field holding the
sequence value. -/
structure Wrap (σ : Type) where
  inner : σ
deriving DecidableEq

/-- A Box of an unsized payload: identity of the heap allocation, payload
address, and the stored content. -/
structure BoxOf (σ : Type) where
  allocId : Nat
  addr : Nat
  content : σ
deriving DecidableEq

/-- An Rc of an unsized payload: allocation identity, payload address,
strong and weak reference counts of the control block, stored content. -/
structure RcOf (σ : Type) where
  allocId : Nat
  addr : Nat
  strong : Nat
  weak : Nat
  content : σ
deriving DecidableEq

/-- An Arc of an unsized payload: same record shape as Rc, with the counts
updated atomically at runtime. -/
structure ArcOf (σ : Type) where
  allocId : Nat
  addr : Nat
  strong : Nat
  weak : Nat
  content : σ
deriving DecidableEq

/-- Generated from_boxed (lib.rs lines 193-199): transmute of the Box fat
pointer; allocation and address unchanged, payload reinterpreted as the
wrapper struct. -/
def from_boxed {σ : Type} (b : BoxOf σ) : BoxOf (Wrap σ) :=
  ⟨b.allocId, b.addr, ⟨b.content⟩⟩

/-- Generated into_boxed (lib.rs lines 202-208): inverse transmute. -/
def into_boxed {σ : Type} (b : BoxOf (Wrap σ)) : BoxOf σ :=
  ⟨b.allocId, b.addr, b.content.inner⟩

/-- Generated From impl for Box (lib.rs lines 211-216): clones the
sequence behind the wrapper reference into a fresh allocation and
transmutes it with from_boxed. The fresh allocation identity and address
are parameters of the allocator. -/
def box_from_wrapper_ref {σ : Type} (w : Wrap σ) (freshId freshAddr : Nat) :
    BoxOf (Wrap σ) :=
  from_boxed ⟨freshId, freshAddr, w.inner⟩

/-- Generated from_rc (lib.rs lines 221-226): transmute of the Rc;
control block (counts) and allocation untouched. -/
def from_rc {σ : Type} (c : RcOf σ) : RcOf (Wrap σ) :=
  ⟨c.allocId, c.addr, c.strong, c.weak, ⟨c.content⟩⟩

/-- Generated into_rc (lib.rs lines 229-234): inverse transmute. -/
def into_rc {σ : Type} (c : RcOf (Wrap σ)) : RcOf σ :=
  ⟨c.allocId, c.addr, c.strong, c.weak, c.content.inner⟩

/-- Generated from_arc (lib.rs lines 240-245): transmute of the Arc. -/
def from_arc {σ : Type} (a : ArcOf σ) : ArcOf (Wrap σ) :=
  ⟨a.allocId, a.addr, a.strong, a.weak, ⟨a.content⟩⟩

/-- Generated into_arc (lib.rs lines 248-253): inverse transmute. -/
def into_arc {σ : Type} (a : ArcOf (Wrap σ)) : ArcOf σ :=
  ⟨a.allocId, a.addr, a.strong, a.weak, a.content.inner⟩

/-! ## String wrappers

A str value is its UTF-8 byte sequence, modelled as a list of bytes. -/

/-- The byte sequence of a str value. -/
abbrev Str := List Nat

/-- Lexicographic byte comparison, the total order on str used by the
core library Ord and PartialOrd instances for str: compare the leading
bytes; on a tie continue with the tails; a proper prefix is smaller. -/
def bytesCmp : Str → Str → Ordering
  | [], [] => .eq
  | [], _ :: _ => .lt
  | _ :: _, [] => .gt
  | a :: as, b :: bs =>
    if a < b then .lt else if b < a then .gt else bytesCmp as bs

/-- Generated PartialEq of str for the wrapper (lib.rs lines 110-114):
the body compares self.0 with other via str equality, which is equality
of the byte sequences. -/
def str_eq (w : Wrap Str) (other : Str) : Bool := w.inner == other

/-- Generated PartialOrd of str for the wrapper (lib.rs lines 116-120):
the body delegates to partial_cmp on str, which always returns some of
the lexicographic byte comparison. -/
def str_partial_cmp (w : Wrap Str) (other : Str) : Option Ordering :=
  some (bytesCmp w.inner other)

/-- Generated AsRef of byte slices for str wrappers (lib.rs lines
104-108): the body is as_ref on str, i.e. the underlying bytes. -/
def str_as_bytes (w : Wrap Str) : Str := w.inner

/-- A Display formatter: the bytes written so far. -/
structure Formatter where
  buf : Str
deriving DecidableEq

/-- Writing a string slice to a formatter appends its bytes. -/
def write_str (f : Formatter) (s : Str) : Formatter := ⟨f.buf ++ s⟩

/-- Generated Display impl for str wrappers (lib.rs lines 122-126): the
body is f.write_str of self.0, nothing else. -/
def display_fmt (w : Wrap Str) (f : Formatter) : Formatter :=
  write_str f w.inner

/-- Rendering a wrapper with Display starting from an empty formatter. -/
def display_render (w : Wrap Str) : Str := (display_fmt w ⟨[]⟩).buf

/-! ## The as_deref projection helper

lib.rs lines 288-301: matches the optional wrapper reference and applies
as_inner (immutable form) or as_inner_mut (mut form) under some. -/

/-- The as_deref macro, immutable form. -/
def as_deref (elem : Layout) : Option Ref → Option Ref
  | some r => some (as_inner elem r)
  | none => none

/-- The as_deref macro, mut form. -/
def as_deref_mut (elem : Layout) : Option Ref → Option Ref
  | some r => some (as_inner_mut elem r)
  | none => none

/-! ## Memory model for mutation claims

Memory is a map from cell addresses to element values. A sequence value
of length n referenced by r occupies the cells r.addr to r.addr + n - 1. -/

/-- Element-granular memory. -/
abbrev Mem (γ : Type) := Nat → γ

/-- Write a sequence value at an address. -/
def writeSeq {γ : Type} (m : Mem γ) (addr : Nat) (v : List γ) : Mem γ :=
  fun a => if addr ≤ a ∧ a < addr + v.length then v.getD (a - addr) (m a) else m a

/-- Read a sequence of the given length from an address. -/
def readSeq {γ : Type} (m : Mem γ) (addr len : Nat) : List γ :=
  (List.range len).map (fun i => m (addr + i))

/-! ## The items one macro expansion emits

A Declaration names a visibility, the shape of the wrapped sequence type,
and the list of requested containers. The generated function computes the
list of items the wrap macro expands to, one entry per item of lib.rs
lines 94-256, and records the Rust visibility each item carries. -/

/-- Rust item visibility as it matters here: pub, or private to the
declaring module. -/
inductive Vis where
  | publicVis
  | privateVis
deriving DecidableEq

/-- Whether a visibility grants access from outside the declaring
module. -/
def Vis.isPub : Vis → Bool
  | .publicVis => true
  | .privateVis => false

/-- The containers a declaration may request (the from = [...] list). -/
inductive Container where
  | box
  | rc
  | arc
deriving DecidableEq

/-- The shape of the wrapped sequence type: an element slice or str. -/
inductive SeqTy where
  | slice
  | str
deriving DecidableEq

/-- The compile-time input of the wrap macro. -/
structure Decl where
  vis : Vis
  seq : SeqTy
  froms : List Container
deriving DecidableEq

/-- One item of the macro expansion. Function items record the visibility
written in the source; trait implementations carry none. -/
inductive Item where
  | structItem (vis : Vis)
  | fnFromRef (vis : Vis)
  | fnFromRefMut (vis : Vis)
  | fnAsInner (vis : Vis)
  | fnAsInnerMut (vis : Vis)
  | implDeref
  | implDerefMut
  | implAsRefSeq
  | implAsMutSeq
  | implAsRefBytes
  | implPartialEqStrForWrapper
  | implPartialEqWrapperForStr
  | implPartialOrdStrForWrapper
  | implPartialOrdWrapperForStr
  | implDisplay
  | fnFromBoxed (vis : Vis)
  | fnIntoBoxed (vis : Vis)
  | implFromRefForBox
  | fnFromRc (vis : Vis)
  | fnIntoRc (vis : Vis)
  | fnFromArc (vis : Vis)
  | fnIntoArc (vis : Vis)
deriving DecidableEq

/-- Items of the inner_base arm (lib.rs lines 137-189): the struct with
the declared visibility, four private fns, and four trait impls. -/
def baseItems (v : Vis) : List Item :=
  [.structItem v,
   .fnFromRef .privateVis,
   .fnFromRefMut .privateVis,
   .fnAsInner .privateVis,
   .fnAsInnerMut .privateVis,
   .implDeref,
   .implDerefMut,
   .implAsRefSeq,
   .implAsMutSeq]

/-- Items of one inner_from arm (lib.rs lines 190-255): the conversion
fns are written without any visibility, hence module-private; the Box arm
additionally emits the From impl for Box. -/
def containerItems : Container → List Item
  | .box => [.fnFromBoxed .privateVis, .fnIntoBoxed .privateVis, .implFromRefForBox]
  | .rc => [.fnFromRc .privateVis, .fnIntoRc .privateVis]
  | .arc => [.fnFromArc .privateVis, .fnIntoArc .privateVis]

/-- Extra items of the str entry arm (lib.rs lines 101-127). -/
def textItems : List Item :=
  [.implAsRefBytes,
   .implPartialEqStrForWrapper,
   .implPartialOrdStrForWrapper,
   .implDisplay]

/-- The full expansion of one wrap invocation: the inner arm (base items,
then one block per requested container, in order), then, for str, the
extra text items. -/
def generated (d : Decl) : List Item :=
  baseItems d.vis ++ (d.froms.map containerItems).flatten ++
    (match d.seq with
     | .str => textItems
     | .slice => [])

/-- Whether an item can be used by code outside the declaring module:
function items by their visibility, trait impls and the struct type
wherever the types are in scope. -/
def accessibleOutside : Item → Bool
  | .structItem v => v.isPub
  | .fnFromRef v => v.isPub
  | .fnFromRefMut v => v.isPub
  | .fnAsInner v => v.isPub
  | .fnAsInnerMut v => v.isPub
  | .fnFromBoxed v => v.isPub
  | .fnIntoBoxed v => v.isPub
  | .fnFromRc v => v.isPub
  | .fnIntoRc v => v.isPub
  | .fnFromArc v => v.isPub
  | .fnIntoArc v => v.isPub
  | _ => true

/-- Whether an item is one of the container conversion functions. -/
def isConversionFn : Item → Bool
  | .fnFromBoxed _ => true
  | .fnIntoBoxed _ => true
  | .fnFromRc _ => true
  | .fnIntoRc _ => true
  | .fnFromArc _ => true
  | .fnIntoArc _ => true
  | _ => false

/-- The two conversion functions generated for a requested container, as
they appear in the expansion. -/
def conversionFns : Container → List Item
  | .box => [.fnFromBoxed .privateVis, .fnIntoBoxed .privateVis]
  | .rc => [.fnFromRc .privateVis, .fnIntoRc .privateVis]
  | .arc => [.fnFromArc .privateVis, .fnIntoArc .privateVis]

/-! ## A call into the generated surface

For the no-runtime-failure claim: an enumeration of every call into code
the wrap macro generates, together with its arguments, and an evaluator
returning an explicit error on any runtime failure path. The source of
each generated function is straight-line safe code with no panic, unwrap,
assert or arithmetic that can fail, so every branch of the evaluator
returns ok. -/

/-- A runtime failure of a generated function (a panic or abort). -/
inductive RuntimeError where
  | failure
deriving DecidableEq

/-- One call into the generated surface with its arguments. -/
inductive GenCall (σ : Type) where
  | callFromRef (r : Ref)
  | callFromRefMut (r : Ref)
  | callAsInner (r : Ref)
  | callAsInnerMut (r : Ref)
  | callDeref (r : Ref)
  | callDerefMut (r : Ref)
  | callAsRef (r : Ref)
  | callAsMut (r : Ref)
  | callFromBoxed (b : BoxOf σ)
  | callIntoBoxed (b : BoxOf (Wrap σ))
  | callBoxFromRef (w : Wrap σ) (freshId freshAddr : Nat)
  | callFromRc (c : RcOf σ)
  | callIntoRc (c : RcOf (Wrap σ))
  | callFromArc (a : ArcOf σ)
  | callIntoArc (a : ArcOf (Wrap σ))
  | callStrEq (w : Wrap Str) (t : Str)
  | callStrPartialCmp (w : Wrap Str) (t : Str)
  | callStrAsBytes (w : Wrap Str)
  | callDisplayFmt (w : Wrap Str) (f : Formatter)

/-- The value a call returns. -/
inductive CallResult (σ : Type) where
  | refResult (r : Ref)
  | boxSeq (b : BoxOf σ)
  | boxWrap (b : BoxOf (Wrap σ))
  | rcSeq (c : RcOf σ)
  | rcWrap (c : RcOf (Wrap σ))
  | arcSeq (a : ArcOf σ)
  | arcWrap (a : ArcOf (Wrap σ))
  | boolResult (b : Bool)
  | ordResult (o : Option Ordering)
  | bytesResult (s : Str)
  | fmtResult (f : Formatter)

/-- Evaluate one call of the generated surface. Each generated function
is embedded above; none of their bodies contains a failure path, so the
error constructor is never produced. -/
def execCall {σ : Type} (elem : Layout) :
    GenCall σ → Except RuntimeError (CallResult σ)
  | .callFromRef r => .ok (.refResult (from_ref r))
  | .callFromRefMut r => .ok (.refResult (from_ref_mut r))
  | .callAsInner r => .ok (.refResult (as_inner elem r))
  | .callAsInnerMut r => .ok (.refResult (as_inner_mut elem r))
  | .callDeref r => .ok (.refResult (deref elem r))
  | .callDerefMut r => .ok (.refResult (deref_mut elem r))
  | .callAsRef r => .ok (.refResult (as_ref elem r))
  | .callAsMut r => .ok (.refResult (as_mut elem r))
  | .callFromBoxed b => .ok (.boxWrap (from_boxed b))
  | .callIntoBoxed b => .ok (.boxSeq (into_boxed b))
  | .callBoxFromRef w i a => .ok (.boxWrap (box_from_wrapper_ref w i a))
  | .callFromRc c => .ok (.rcWrap (from_rc c))
  | .callIntoRc c => .ok (.rcSeq (into_rc c))
  | .callFromArc a => .ok (.arcWrap (from_arc a))
  | .callIntoArc a => .ok (.arcSeq (into_arc a))
  | .callStrEq w t => .ok (.boolResult (str_eq w t))
  | .callStrPartialCmp w t => .ok (.ordResult (str_partial_cmp w t))
  | .callStrAsBytes w => .ok (.bytesResult (str_as_bytes w))
  | .callDisplayFmt w f => .ok (.fmtResult (display_fmt w f))

/-! ## Memory lemmas -/

theorem writeSeq_outside {γ : Type} (m : Mem γ) (addr : Nat) (v : List γ)
    (a : Nat) (h : a < addr ∨ addr + v.length ≤ a) : writeSeq m addr v a = m a := by
  unfold writeSeq
  rw [if_neg]
  omega

theorem readSeq_writeSeq {γ : Type} (m : Mem γ) (addr : Nat) (v : List γ) :
    readSeq (writeSeq m addr v) addr v.length = v := by
  apply List.ext_getElem
  · simp [readSeq]
  · intro i h1 h2
    have hi : i < v.length := h2
    simp only [readSeq, List.getElem_map, List.getElem_range]
    unfold writeSeq
    rw [if_pos (by omega)]
    rw [Nat.add_sub_cancel_left]
    exact List.getD_eq_getElem v _ hi

/-! ## Lexicographic comparison lemmas -/

theorem bytesCmp_eq_iff (a b : Str) : bytesCmp a b = .eq ↔ a = b := by
  induction a generalizing b with
  | nil =>
    cases b with
    | nil => simp [bytesCmp]
    | cons y ys => simp [bytesCmp]
  | cons x xs ih =>
    cases b with
    | nil => simp [bytesCmp]
    | cons y ys =>
      show (if x < y then Ordering.lt else if y < x then Ordering.gt else bytesCmp xs ys)
          = Ordering.eq ↔ x :: xs = y :: ys
      rcases Nat.lt_trichotomy x y with h | h | h
      · rw [if_pos h]
        constructor
        · intro hc
          cases hc
        · intro hc
          have hx : x = y := by injection hc
          omega
      · subst h
        rw [if_neg (Nat.lt_irrefl x), if_neg (Nat.lt_irrefl x), ih]
        constructor
        · intro hc
          rw [hc]
        · intro hc
          injection hc
      · rw [if_neg (by omega), if_pos h]
        constructor
        · intro hc
          cases hc
        · intro hc
          have hx : x = y := by injection hc
          omega

theorem bytesCmp_lt_iff (a b : Str) :
    bytesCmp a b = .lt ↔ List.Lex (fun x y => x < y) a b := by
  induction a generalizing b with
  | nil =>
    cases b with
    | nil =>
      constructor
      · intro hc
        cases hc
      · intro hl
        cases hl
    | cons y ys =>
      exact ⟨fun _ => List.Lex.nil, fun _ => rfl⟩
  | cons x xs ih =>
    cases b with
    | nil =>
      constructor
      · intro hc
        cases hc
      · intro hl
        cases hl
    | cons y ys =>
      show (if x < y then Ordering.lt else if y < x then Ordering.gt else bytesCmp xs ys)
          = Ordering.lt ↔ List.Lex (fun x y => x < y) (x :: xs) (y :: ys)
      rcases Nat.lt_trichotomy x y with h | h | h
      · rw [if_pos h]
        exact ⟨fun _ => List.Lex.rel h, fun _ => rfl⟩
      · subst h
        rw [if_neg (Nat.lt_irrefl x), if_neg (Nat.lt_irrefl x), ih]
        constructor
        · intro hl
          exact List.Lex.cons hl
        · intro hl
          cases hl with
          | cons htail => exact htail
          | rel hrel => exact absurd hrel (Nat.lt_irrefl x)
      · rw [if_neg (by omega), if_pos h]
        constructor
        · intro hc
          cases hc
        · intro hl
          cases hl with
          | cons htail => omega
          | rel hrel => omega

theorem bytesCmp_gt_iff (a b : Str) :
    bytesCmp a b = .gt ↔ List.Lex (fun x y => x < y) b a := by
  induction a generalizing b with
  | nil =>
    cases b with
    | nil =>
      constructor
      · intro hc
        cases hc
      · intro hl
        cases hl
    | cons y ys =>
      constructor
      · intro hc
        cases hc
      · intro hl
        cases hl
  | cons x xs ih =>
    cases b with
    | nil =>
      exact ⟨fun _ => List.Lex.nil, fun _ => rfl⟩
    | cons y ys =>
      show (if x < y then Ordering.lt else if y < x then Ordering.gt else bytesCmp xs ys)
          = Ordering.gt ↔ List.Lex (fun x y => x < y) (y :: ys) (x :: xs)
      rcases Nat.lt_trichotomy x y with h | h | h
      · rw [if_pos h]
        constructor
        · intro hc
          cases hc
        · intro hl
          cases hl with
          | cons htail => omega
          | rel hrel => omega
      · subst h
        rw [if_neg (Nat.lt_irrefl x), if_neg (Nat.lt_irrefl x), ih]
        constructor
        · intro hl
          exact List.Lex.cons hl
        · intro hl
          cases hl with
          | cons htail => exact htail
          | rel hrel => exact absurd hrel (Nat.lt_irrefl x)
      · rw [if_neg (by omega), if_pos h]
        exact ⟨fun _ => List.Lex.rel h, fun _ => rfl⟩

/-! ## Claim theorems -/

/-- C1: for every declared wrapper type (any element layout with positive
alignment and element size a multiple of the alignment, as Rust
guarantees for every type) and every sequence length, the generated
repr(transparent) wrapper struct has exactly the size and alignment of
the wrapped sequence value, and the address of the sequence field inside
any wrapper instance is the address of the instance itself. -/
theorem c1_layout_transparency (elem : Layout) (len : Nat)
    (hal : 0 < elem.align) (hdvd : elem.align ∣ elem.size) :
    wrapperLayout elem len = seqLayout elem len ∧
      wrapperFieldOffset elem len = 0 ∧
      ∀ r : Ref, (as_inner elem r).addr = r.addr := by
  have hoff : ∀ n, wrapperFieldOffset elem n = 0 :=
    fun n => wrapperFieldOffset_eq_zero hal n
  refine ⟨?_, hoff len, ?_⟩
  · unfold wrapperLayout structLayout
    have ha : structAlign [seqLayout elem len] = elem.align := by
      unfold structAlign seqLayout
      simp only [List.foldr]
      omega
    have he : structEnd 0 [seqLayout elem len] = len * elem.size := by
      unfold structEnd structEnd seqLayout
      rw [alignUp_zero hal, Nat.zero_add]
    rw [ha, he, alignUp_of_dvd hal (Dvd.dvd.mul_left hdvd len)]
    rfl
  · intro r
    unfold as_inner
    rw [hoff r.len]
    rfl

/-- Witness for C1 at the layout of u64 slices (element size 8, align 8)
and length 5. -/
theorem c1_layout_transparency_witness :
    0 < (Layout.mk 8 8).align ∧ (Layout.mk 8 8).align ∣ (Layout.mk 8 8).size ∧
      (wrapperLayout (Layout.mk 8 8) 5 = seqLayout (Layout.mk 8 8) 5 ∧
        wrapperFieldOffset (Layout.mk 8 8) 5 = 0 ∧
        ∀ r : Ref, (as_inner (Layout.mk 8 8) r).addr = r.addr) :=
  ⟨by decide, by decide, c1_layout_transparency (Layout.mk 8 8) 5 (by decide) (by decide)⟩

/-- C2: applying the generated accessor as_inner to the wrapper reference
returned by the private constructor from_ref yields back the identical
fat reference: same address, same metadata. -/
theorem c2_round_trip_identity (elem : Layout) (r : Ref) (hal : 0 < elem.align) :
    as_inner elem (from_ref r) = r := by
  unfold as_inner from_ref
  rw [wrapperFieldOffset_eq_zero hal]
  rfl

/-- Witness for C2 at the str element layout and a concrete reference. -/
theorem c2_round_trip_identity_witness :
    0 < (Layout.mk 1 1).align ∧
      as_inner (Layout.mk 1 1) (from_ref (Ref.mk 4096 11)) = Ref.mk 4096 11 :=
  ⟨by decide, c2_round_trip_identity (Layout.mk 1 1) (Ref.mk 4096 11) (by decide)⟩

/-- C3: for each of the three containers, converting a container holding
a sequence value into a container of the wrapper and back yields the
original container record: identical content, identical allocation
identity and payload address, and for the reference-counted containers
identical strong and weak counts, so no reallocation and no control-block
change happens anywhere in the round trip. -/
theorem c3_container_round_trip (σ : Type) (b : BoxOf σ) (c : RcOf σ) (a : ArcOf σ) :
    (into_boxed (from_boxed b) = b ∧
      (from_boxed b).allocId = b.allocId ∧ (from_boxed b).addr = b.addr ∧
      (into_boxed (from_boxed b)).content = b.content) ∧
    (into_rc (from_rc c) = c ∧
      (from_rc c).allocId = c.allocId ∧ (from_rc c).addr = c.addr ∧
      (from_rc c).strong = c.strong ∧ (from_rc c).weak = c.weak ∧
      (into_rc (from_rc c)).content = c.content) ∧
    (into_arc (from_arc a) = a ∧
      (from_arc a).allocId = a.allocId ∧ (from_arc a).addr = a.addr ∧
      (from_arc a).strong = a.strong ∧ (from_arc a).weak = a.weak ∧
      (into_arc (from_arc a)).content = a.content) :=
  ⟨⟨rfl, rfl, rfl, rfl⟩, ⟨rfl, rfl, rfl, rfl, rfl, rfl⟩, ⟨rfl, rfl, rfl, rfl, rfl, rfl⟩⟩

/-- C5: no call into the generated surface has a runtime failure path:
the evaluator of generated calls returns ok on every input, for every
element layout and element type. -/
theorem c5_total_no_runtime_failure (σ : Type) (elem : Layout) (call : GenCall σ) :
    ∃ v, execCall elem call = Except.ok v := by
  cases call with
  | callFromRef r => exact ⟨_, rfl⟩
  | callFromRefMut r => exact ⟨_, rfl⟩
  | callAsInner r => exact ⟨_, rfl⟩
  | callAsInnerMut r => exact ⟨_, rfl⟩
  | callDeref r => exact ⟨_, rfl⟩
  | callDerefMut r => exact ⟨_, rfl⟩
  | callAsRef r => exact ⟨_, rfl⟩
  | callAsMut r => exact ⟨_, rfl⟩
  | callFromBoxed b => exact ⟨_, rfl⟩
  | callIntoBoxed b => exact ⟨_, rfl⟩
  | callBoxFromRef w i a => exact ⟨_, rfl⟩
  | callFromRc c => exact ⟨_, rfl⟩
  | callIntoRc c => exact ⟨_, rfl⟩
  | callFromArc a => exact ⟨_, rfl⟩
  | callIntoArc a => exact ⟨_, rfl⟩
  | callStrEq w t => exact ⟨_, rfl⟩
  | callStrPartialCmp w t => exact ⟨_, rfl⟩
  | callStrAsBytes w => exact ⟨_, rfl⟩
  | callDisplayFmt w f => exact ⟨_, rfl⟩

/-- C6: the as_deref helper maps none to none and some to some of the
corresponding accessor, in both the immutable and the mut form; the
reference it returns points at the same address as its input, so no
allocation and no ownership transfer takes place. -/
theorem c6_as_deref_projection (elem : Layout) (r : Ref) (hal : 0 < elem.align) :
    as_deref elem none = none ∧
      as_deref elem (some r) = some (as_inner elem r) ∧
      as_deref_mut elem none = none ∧
      as_deref_mut elem (some r) = some (as_inner_mut elem r) ∧
      (as_inner elem r).addr = r.addr ∧ (as_inner_mut elem r).addr = r.addr := by
  refine ⟨rfl, rfl, rfl, rfl, ?_, ?_⟩ <;>
    simp [as_inner, as_inner_mut, wrapperFieldOffset_eq_zero hal]

/-- Witness for C6 at the str element layout and a concrete reference. -/
theorem c6_as_deref_projection_witness :
    0 < (Layout.mk 1 1).align ∧
      (as_deref (Layout.mk 1 1) none = none ∧
        as_deref (Layout.mk 1 1) (some (Ref.mk 64 3)) =
          some (as_inner (Layout.mk 1 1) (Ref.mk 64 3)) ∧
        as_deref_mut (Layout.mk 1 1) none = none ∧
        as_deref_mut (Layout.mk 1 1) (some (Ref.mk 64 3)) =
          some (as_inner_mut (Layout.mk 1 1) (Ref.mk 64 3)) ∧
        (as_inner (Layout.mk 1 1) (Ref.mk 64 3)).addr = 64 ∧
        (as_inner_mut (Layout.mk 1 1) (Ref.mk 64 3)).addr = 64) :=
  ⟨by decide, c6_as_deref_projection (Layout.mk 1 1) (Ref.mk 64 3) (by decide)⟩

/-- C8: the generated Display implementation writes exactly the
underlying text to the formatter and nothing else; rendering from an
empty formatter yields the underlying bytes verbatim, with no quoting
and no type-name prefix. -/
theorem c8_display_fidelity (w : Wrap Str) (f : Formatter) :
    display_fmt w f = Formatter.mk (f.buf ++ w.inner) ∧
      display_render w = w.inner := by
  constructor
  · rfl
  · unfold display_render display_fmt write_str
    simp

/-- C10: all generated immutable accessors coincide: as_inner, the AsRef
impl and the Deref impl return the same reference, and likewise
as_inner_mut, the AsMut impl and the DerefMut impl; moreover the mutable
accessors target the same location as the immutable ones. -/
theorem c10_accessors_coincide (elem : Layout) (r : Ref) :
    as_inner elem r = deref elem r ∧
      as_ref elem r = as_inner elem r ∧
      as_inner_mut elem r = deref_mut elem r ∧
      as_mut elem r = as_inner_mut elem r ∧
      as_inner elem r = as_inner_mut elem r :=
  ⟨rfl, rfl, rfl, rfl, rfl⟩

/-- C7: the mutable reference obtained through from_ref_mut followed by
the AsMut accessor is the original reference itself (no copy of the
sequence is made), a write through it of a new sequence value is read
back unchanged at the original reference, and every memory cell outside
the written range keeps its previous value. -/
theorem c7_mutation_visibility (γ : Type) (elem : Layout) (m : Mem γ)
    (r : Ref) (v : List γ) (hal : 0 < elem.align) :
    as_mut elem (from_ref_mut r) = r ∧
      readSeq (writeSeq m (as_mut elem (from_ref_mut r)).addr v) r.addr v.length = v ∧
      ∀ a, a < r.addr ∨ r.addr + v.length ≤ a →
        writeSeq m (as_mut elem (from_ref_mut r)).addr v a = m a := by
  have hr : as_mut elem (from_ref_mut r) = r := by
    unfold as_mut as_inner_mut from_ref_mut
    rw [wrapperFieldOffset_eq_zero hal]
    rfl
  refine ⟨hr, ?_, ?_⟩
  · rw [hr]
    exact readSeq_writeSeq m r.addr v
  · intro a ha
    rw [hr]
    exact writeSeq_outside m r.addr v a ha

/-- Witness for C7: a four-byte wrapper at address 16 in a zeroed byte
memory, overwritten with the bytes 9, 8, 7, 6. -/
theorem c7_mutation_visibility_witness :
    0 < (Layout.mk 1 1).align ∧
      (as_mut (Layout.mk 1 1) (from_ref_mut (Ref.mk 16 4)) = Ref.mk 16 4 ∧
        readSeq
          (writeSeq (fun _ => 0)
            (as_mut (Layout.mk 1 1) (from_ref_mut (Ref.mk 16 4))).addr [9, 8, 7, 6])
          (Ref.mk 16 4).addr [9, 8, 7, 6].length = [9, 8, 7, 6] ∧
        ∀ a, a < (Ref.mk 16 4).addr ∨ (Ref.mk 16 4).addr + [9, 8, 7, 6].length ≤ a →
          writeSeq (fun _ => 0)
            (as_mut (Layout.mk 1 1) (from_ref_mut (Ref.mk 16 4))).addr [9, 8, 7, 6] a =
            (fun _ => (0 : Nat)) a) :=
  ⟨by decide,
   c7_mutation_visibility Nat (Layout.mk 1 1) (fun _ => 0) (Ref.mk 16 4) [9, 8, 7, 6]
     (by decide)⟩

/-- C4 counterexample: the claim asserts that both comparison directions
are available for a text wrapper, but the expansion of a str declaration
contains no PartialEq impl of the wrapper for str (the direction with the
raw text on the left), only the one of str for the wrapper, so the
comparison with the raw text on the left does not exist. Shown at the
concrete declaration of a public str wrapper with no containers. -/
theorem c4_reverse_compare_not_generated :
    Item.implPartialEqWrapperForStr ∉ generated (Decl.mk Vis.publicVis SeqTy.str []) ∧
      Item.implPartialOrdWrapperForStr ∉ generated (Decl.mk Vis.publicVis SeqTy.str []) ∧
      Item.implPartialEqStrForWrapper ∈ generated (Decl.mk Vis.publicVis SeqTy.str []) ∧
      Item.implPartialOrdStrForWrapper ∈ generated (Decl.mk Vis.publicVis SeqTy.str []) :=
  ⟨by decide, by decide, by decide, by decide⟩

/-- C4 amended: every str declaration generates the comparison of the
wrapper against raw text (wrapper on the left only); that comparison
holds exactly when the byte sequences are equal, and the generated
partial ordering against raw text is total and agrees with lexicographic
byte ordering: eq exactly on equal byte sequences, lt exactly on
lexicographically smaller ones, gt exactly on lexicographically greater
ones. -/
theorem c4_text_comparison (v : Vis) (fs : List Container) (w : Wrap Str) (t : Str) :
    Item.implPartialEqStrForWrapper ∈ generated (Decl.mk v SeqTy.str fs) ∧
      Item.implPartialOrdStrForWrapper ∈ generated (Decl.mk v SeqTy.str fs) ∧
      (str_eq w t = true ↔ w.inner = t) ∧
      (str_partial_cmp w t = some Ordering.eq ↔ w.inner = t) ∧
      (str_partial_cmp w t = some Ordering.lt ↔ List.Lex (fun x y => x < y) w.inner t) ∧
      (str_partial_cmp w t = some Ordering.gt ↔ List.Lex (fun x y => x < y) t w.inner) := by
  refine ⟨?_, ?_, ?_, ?_, ?_, ?_⟩
  · simp [generated, textItems]
  · simp [generated, textItems]
  · unfold str_eq
    exact beq_iff_eq
  · unfold str_partial_cmp
    rw [Option.some_inj]
    exact bytesCmp_eq_iff w.inner t
  · unfold str_partial_cmp
    rw [Option.some_inj]
    exact bytesCmp_lt_iff w.inner t
  · unfold str_partial_cmp
    rw [Option.some_inj]
    exact bytesCmp_gt_iff w.inner t

/-- C9 counterexample: the claim asserts the container conversion
functions are accessible outside the declaring scope, but in the
expansion of a declaration requesting all three containers every
conversion function item is module-private: no conversion function item
with public visibility occurs, and the private ones do. -/
theorem c9_conversions_not_public :
    (∀ i ∈ generated
        (Decl.mk Vis.publicVis SeqTy.slice [Container.box, Container.rc, Container.arc]),
      isConversionFn i = true → accessibleOutside i = false) ∧
      Item.fnFromBoxed Vis.publicVis ∉ generated
        (Decl.mk Vis.publicVis SeqTy.slice [Container.box, Container.rc, Container.arc]) ∧
      Item.fnFromBoxed Vis.privateVis ∈ generated
        (Decl.mk Vis.publicVis SeqTy.slice [Container.box, Container.rc, Container.arc]) :=
  ⟨by decide, by decide, by decide⟩

/-- C9 amended: for every declaration and every container it requests,
both zero-copy conversion functions for that container are part of the
generated items, but they carry no visibility in the source and are
therefore private to the declaring module, not accessible outside the
declaring scope. -/
theorem c9_conversions_generated_private (d : Decl) (c : Container)
    (hc : c ∈ d.froms) :
    ∀ i ∈ conversionFns c, i ∈ generated d ∧ accessibleOutside i = false := by
  intro i hi
  have hsub : i ∈ containerItems c := by
    cases c <;>
      (simp only [conversionFns, List.mem_cons, List.not_mem_nil, or_false] at hi
       rcases hi with rfl | rfl <;> simp [containerItems])
  have hacc : accessibleOutside i = false := by
    cases c <;>
      (simp only [conversionFns, List.mem_cons, List.not_mem_nil, or_false] at hi
       rcases hi with rfl | rfl <;> rfl)
  refine ⟨?_, hacc⟩
  unfold generated
  refine List.mem_append_left _ (List.mem_append_right _ ?_)
  rw [List.mem_flatten]
  exact ⟨containerItems c, List.mem_map_of_mem containerItems hc, hsub⟩

/-- Witness for C9 amended at a concrete declaration requesting Box. -/
theorem c9_conversions_generated_private_witness :
    Container.box ∈ (Decl.mk Vis.publicVis SeqTy.slice [Container.box]).froms ∧
      Item.fnFromBoxed Vis.privateVis ∈ conversionFns Container.box ∧
      (Item.fnFromBoxed Vis.privateVis ∈
          generated (Decl.mk Vis.publicVis SeqTy.slice [Container.box]) ∧
        accessibleOutside (Item.fnFromBoxed Vis.privateVis) = false) :=
  ⟨by decide, by decide,
   c9_conversions_generated_private (Decl.mk Vis.publicVis SeqTy.slice [Container.box])
     Container.box (by decide) (Item.fnFromBoxed Vis.privateVis) (by decide)⟩

end Slicewrap
